import Mathlib

/-!
# Winds persistence layer: `models/podcast.js` and `models/user.js`

A shallow embedding of the two Mongoose models of the repository:

* the JavaScript values of a serialized document, with the fragment of the
  language the schema transforms use (property read, property write,
  `delete`, `!x`, `x || y`);
* the Podcast `toJSON` / `toObject` transforms, `searchDocument`,
  `incrScrapeFailures` and `resetScrapeFailures`;
* the User `toJSON` / `toObject` transforms, `serializeAuthenticatedUser`
  and the `post('remove')` hook that removes the pins, playlists, follows and
  likes of a removed user.
-/

namespace Winds

/-! ## JavaScript values -/

/-- Scope of a feed token handed out by the Stream client. -/
inductive Scope where
  | readOnly
  | readWrite
  deriving DecidableEq, Repr

/-- The values a document can hold. Numbers only matter here through their
truthiness, so a number is an integer or `NaN`. An array is an object keyed by
its indices. The tokens of the two external signers (`getstream`, and
`jsonwebtoken`) are strings in JavaScript; they are kept symbolic, as the
data that was signed. -/
inductive JsVal where
  | undefined
  | null
  | bool (b : Bool)
  | num (n : Int)
  | nan
  | str (s : String)
  | feedToken (feed : String) (subject : JsVal) (scope : Scope)
  | jwt (claims : List (String × JsVal)) (secret : String)
  | obj (props : List (String × JsVal))

/-- The properties of a plain object, in insertion order. -/
abbrev Obj := List (String × JsVal)

namespace JsVal

/-- JavaScript `ToBoolean`. -/
def truthy : JsVal → Bool
  | undefined => false
  | null => false
  | bool b => b
  | num n => n != 0
  | nan => false
  | str s => s != ""
  | feedToken _ _ _ => true
  | jwt _ _ => true
  | obj _ => true

/-- JavaScript `a || b`. -/
def or (a b : JsVal) : JsVal :=
  if a.truthy then a else b

end JsVal

namespace Obj

/-- Property read `o[k]`: the value of the property, `undefined` when the
object has no such property. -/
def get : Obj → String → JsVal
  | [], _ => JsVal.undefined
  | (k', v) :: rest, k => if k' = k then v else get rest k

/-- Whether `k in o`. -/
def hasKey : Obj → String → Bool
  | [], _ => false
  | (k', _) :: rest, k => if k' = k then true else hasKey rest k

/-- Property write `o[k] = v`: overwrites the property in place, or adds it
after the existing ones. -/
def set : Obj → String → JsVal → Obj
  | [], k, v => [(k, v)]
  | (k', v') :: rest, k, v =>
    if k' = k then (k, v) :: rest else (k', v') :: set rest k v

/-- The statement `delete o[k]`. -/
def delete (o : Obj) (k : String) : Obj :=
  o.filter (fun p => p.1 ≠ k)

/-- The names of the properties, in order. -/
def keys (o : Obj) : List String :=
  o.map Prod.fst

end Obj

/-- Property read `v[k]` on any value that is neither `undefined` nor `null`:
a primitive has none of the properties read in this file. -/
def JsVal.getProp : JsVal → String → JsVal
  | JsVal.obj props, k => Obj.get props k
  | _, _ => JsVal.undefined

/-- What a strict-mode statement can throw. -/
inductive JsError where
  | typeError
  deriving DecidableEq, Repr

/-- Property write `v[k] = x` in strict mode (an ES module): on an object it
sets the property, on a primitive it throws a `TypeError`. -/
def JsVal.setProp : JsVal → String → JsVal → Except JsError JsVal
  | JsVal.obj props, k, x => Except.ok (JsVal.obj (Obj.set props k x))
  | _, _, _ => Except.error JsError.typeError

/-! ## Podcast: the `toJSON` / `toObject` transforms -/

namespace PodcastSchema

/-- The body shared, word for word, by the `toJSON` and `toObject` transforms:
```
if (!ret.images) { ret.images = {}; }
ret.images.favicon = ret.images.favicon || '';
ret.images.og = ret.images.og || '';
```
The transform returns nothing, so the serialized document is `ret` after these
statements. -/
def toJSONTransform (ret : Obj) : Except JsError Obj := do
  let ret := if !(Obj.get ret "images").truthy then Obj.set ret "images" (JsVal.obj []) else ret
  let images ← (Obj.get ret "images").setProp "favicon"
    (((Obj.get ret "images").getProp "favicon").or (JsVal.str ""))
  let ret := Obj.set ret "images" images
  let images ← (Obj.get ret "images").setProp "og"
    (((Obj.get ret "images").getProp "og").or (JsVal.str ""))
  let ret := Obj.set ret "images" images
  return ret

/-- The `toObject` transform: the same statements as `toJSONTransform`. -/
def toObjectTransform (ret : Obj) : Except JsError Obj := do
  let ret := if !(Obj.get ret "images").truthy then Obj.set ret "images" (JsVal.obj []) else ret
  let images ← (Obj.get ret "images").setProp "favicon"
    (((Obj.get ret "images").getProp "favicon").or (JsVal.str ""))
  let ret := Obj.set ret "images" images
  let images ← (Obj.get ret "images").setProp "og"
    (((Obj.get ret "images").getProp "og").or (JsVal.str ""))
  let ret := Obj.set ret "images" images
  return ret

end PodcastSchema

/-! ### The serialized document handed to the transforms

Mongoose builds `ret` from the schema: `images` is a nested path holding the
four `type: String` paths `featured`, `banner`, `favicon` and `og`. -/

/-- The content of a path the schema declares with `type: String`: missing,
`null`, or a string. -/
inductive StringPath where
  | absent
  | null
  | str (s : String)
  deriving DecidableEq, Repr

namespace StringPath

/-- The property `k` holding this path, if the path is there at all. -/
def entry (k : String) : StringPath → Obj
  | absent => []
  | null => [(k, JsVal.null)]
  | str s => [(k, JsVal.str s)]

/-- What a property read of this path gives. -/
def toJs : StringPath → JsVal
  | absent => JsVal.undefined
  | null => JsVal.null
  | str s => JsVal.str s

/-- Whether the property exists. -/
def present : StringPath → Bool
  | absent => false
  | _ => true

/-- The stored value when it is a non-empty string, the empty string
otherwise. -/
def orEmpty : StringPath → String
  | str s => if s ≠ "" then s else ""
  | _ => ""

end StringPath

/-- The nested `images` path of the Podcast schema. -/
structure Images where
  featured : StringPath
  banner : StringPath
  favicon : StringPath
  og : StringPath
  deriving DecidableEq, Repr

/-- The object `images` serializes to. -/
def Images.toObj (im : Images) : Obj :=
  im.featured.entry "featured" ++ im.banner.entry "banner"
    ++ im.favicon.entry "favicon" ++ im.og.entry "og"

/-- The `images` property of a serialized Podcast: missing, `null`, or the
nested object. -/
inductive ImagesPath where
  | absent
  | null
  | obj (images : Images)
  deriving DecidableEq, Repr

namespace ImagesPath

/-- The `images` property, if it is there at all. -/
def entry : ImagesPath → Obj
  | absent => []
  | null => [("images", JsVal.null)]
  | obj im => [("images", JsVal.obj im.toObj)]

/-- The stored `images.favicon`. -/
def favicon : ImagesPath → StringPath
  | obj im => im.favicon
  | _ => StringPath.absent

/-- The stored `images.og`. -/
def og : ImagesPath → StringPath
  | obj im => im.og
  | _ => StringPath.absent

/-- The stored `images.featured`. -/
def featured : ImagesPath → StringPath
  | obj im => im.featured
  | _ => StringPath.absent

/-- The stored `images.banner`. -/
def banner : ImagesPath → StringPath
  | obj im => im.banner
  | _ => StringPath.absent

end ImagesPath

/-- A serialized Podcast as the transforms receive it: the `images` path, and
the other properties of the document, whatever they are. -/
structure PodcastRet where
  images : ImagesPath
  others : Obj

/-- The JavaScript object `ret`. -/
def PodcastRet.toObj (d : PodcastRet) : Obj :=
  Obj.delete d.others "images" ++ d.images.entry

/-! ### The defaults of the schema

Each of the four image paths is declared with `default: ''`. -/

/-- A path with a default: when Mongoose builds the document, a path that has
no value gets the default; a path holding `null` or a string keeps it. -/
def StringPath.withDefault (dflt : String) : StringPath → StringPath
  | StringPath.absent => StringPath.str dflt
  | p => p

/-- The nested `images` of a Podcast document, once the defaults declared for
`featured`, `banner`, `favicon` and `og` are applied. -/
def PodcastSchema.imagesDefaults (im : Images) : Images :=
  { featured := im.featured.withDefault "",
    banner := im.banner.withDefault "",
    favicon := im.favicon.withDefault "",
    og := im.og.withDefault "" }

/-- The `images` of a Podcast created with `images = {featured: "x.png"}`. -/
def featuredOnly : Images :=
  { featured := StringPath.str "x.png",
    banner := StringPath.absent,
    favicon := StringPath.absent,
    og := StringPath.absent }

/-! ## Podcast: `searchDocument` -/

/-- The method `searchDocument`; `this` is the Podcast document, read through
its properties. -/
def PodcastSchema.searchDocument (this : Obj) : Obj :=
  [("_id", Obj.get this "_id"),
   ("objectID", Obj.get this "_id"),
   ("categories", JsVal.str "Podcast"),
   ("description", Obj.get this "title"),
   ("image", Obj.get this "favicon"),
   ("public", JsVal.bool true),
   ("publicationDate", Obj.get this "publicationDate"),
   ("title", Obj.get this "title"),
   ("type", JsVal.str "podcast")]

/-! ## Podcast: the scrape-failure counter -/

/-- Identity of a stored document. -/
abbrev ObjectId := Nat

/-- A Podcast in the `podcasts` collection: its identity, the counter
`consecutiveScrapeFailures` (a `Number` with default `0`; the store adds to it
exactly, so it is a natural number here) and its other paths. -/
structure Podcast where
  _id : ObjectId
  consecutiveScrapeFailures : Nat
  fields : Obj

/-- The update `findOneAndUpdate({ _id: id }, update)`: the first document
with that `_id` is updated, and nothing happens when there is none. -/
def findOneAndUpdate (id : ObjectId) (update : Podcast → Podcast) :
    List Podcast → List Podcast
  | [] => []
  | p :: ps =>
    if p._id = id then update p :: ps else p :: findOneAndUpdate id update ps

/-- The query `findOne({ _id: id })`. -/
def findById (id : ObjectId) (podcasts : List Podcast) : Option Podcast :=
  podcasts.find? (fun p => p._id = id)

/-- The static `incrScrapeFailures`:
`{ $inc: { consecutiveScrapeFailures: 1 } }`. -/
def PodcastSchema.incrScrapeFailures (id : ObjectId) (podcasts : List Podcast) :
    List Podcast :=
  findOneAndUpdate id
    (fun p => { p with consecutiveScrapeFailures := p.consecutiveScrapeFailures + 1 })
    podcasts

/-- The static `resetScrapeFailures`:
`{ $set: { consecutiveScrapeFailures: 0 } }`. -/
def PodcastSchema.resetScrapeFailures (id : ObjectId) (podcasts : List Podcast) :
    List Podcast :=
  findOneAndUpdate id (fun p => { p with consecutiveScrapeFailures := 0 }) podcasts

/-- A call of one of the two statics. -/
inductive ScrapeCall where
  | incrScrapeFailures (id : ObjectId)
  | resetScrapeFailures (id : ObjectId)
  deriving DecidableEq, Repr

/-- One call, run against the collection. -/
def ScrapeCall.run : ScrapeCall → List Podcast → List Podcast
  | ScrapeCall.incrScrapeFailures id, podcasts =>
    PodcastSchema.incrScrapeFailures id podcasts
  | ScrapeCall.resetScrapeFailures id, podcasts =>
    PodcastSchema.resetScrapeFailures id podcasts

/-- A sequence of calls, run in order. -/
def runCalls (calls : List ScrapeCall) (podcasts : List Podcast) : List Podcast :=
  calls.foldl (fun ps c => c.run ps) podcasts

/-- The number the specification gives for Podcast `id` after `calls`: how many
`incrScrapeFailures id` calls come after the last `resetScrapeFailures id`
call, all of them when there is no such reset. -/
def failuresSinceLastReset (id : ObjectId) (calls : List ScrapeCall) : Nat :=
  ((calls.reverse.takeWhile (fun c => c ≠ ScrapeCall.resetScrapeFailures id)).filter
    (fun c => c = ScrapeCall.incrScrapeFailures id)).length

/-! ## User: the `toJSON` / `toObject` transforms -/

namespace UserSchema

/-- The `toJSON` transform:
```
delete ret.password;
if (ret.email) { ret.gravatar = gravatar.url(ret.email, { s: '200', d: 'identicon' }); }
```
`gravatarUrl` is the function of the `gravatar` package with these options. -/
def toJSONTransform (gravatarUrl : JsVal → JsVal) (ret : Obj) : Obj :=
  let ret := Obj.delete ret "password"
  if (Obj.get ret "email").truthy then
    Obj.set ret "gravatar" (gravatarUrl (Obj.get ret "email"))
  else ret

/-- The `toObject` transform: the same statements as `toJSONTransform`. -/
def toObjectTransform (gravatarUrl : JsVal → JsVal) (ret : Obj) : Obj :=
  let ret := Obj.delete ret "password"
  if (Obj.get ret "email").truthy then
    Obj.set ret "gravatar" (gravatarUrl (Obj.get ret "email"))
  else ret

end UserSchema

/-! ## User: `serializeAuthenticatedUser` -/

/-- The call `streamClient.feed(slug, id).getReadOnlyToken()`: the signed
token is kept symbolic, as the feed it is for and its scope. -/
def getReadOnlyToken (slug : String) (id : JsVal) : JsVal :=
  JsVal.feedToken slug id Scope.readOnly

/-- The call `jwt.sign(claims, secret)`, kept symbolic. -/
def jwtSign (claims : Obj) (secret : String) : JsVal :=
  JsVal.jwt claims secret

/-- The method `serializeAuthenticatedUser`; `user` is the User document and
`secret` is `config.jwt.secret`. -/
def UserSchema.serializeAuthenticatedUser (secret : String) (user : Obj) : Obj :=
  let streamTokens : Obj :=
    ["timeline", "user_article", "user_episode"].foldl
      (fun streamTokens k => Obj.set streamTokens k (getReadOnlyToken k (Obj.get user "_id")))
      []
  [("_id", Obj.get user "_id"),
   ("email", Obj.get user "email"),
   ("interests", Obj.get user "interests"),
   ("jwt", jwtSign [("email", Obj.get user "email"), ("sub", Obj.get user "_id")] secret),
   ("name", Obj.get user "name"),
   ("username", Obj.get user "username"),
   ("streamTokens", JsVal.obj streamTokens)]

/-! ## User: the `post('remove')` hook -/

/-- The four models the hook removes from. -/
inductive Relation where
  | pin
  | playlist
  | follow
  | like
  deriving DecidableEq, Repr

/-- Modelled from the spec: the Pin, Playlist, Follow and Like schemas
(`./pin`, `./playlist`, `./follow`, `./like`) are not among the sources. Each
dependent entity holds a back-reference to exactly one owning User in its
`user` field. -/
structure Dependent where
  _id : ObjectId
  user : ObjectId
  deriving DecidableEq, Repr

/-- The four collections. -/
structure Store where
  pins : List Dependent
  playlists : List Dependent
  follows : List Dependent
  likes : List Dependent
  deriving DecidableEq, Repr

/-- The collection of a model. -/
def Store.coll (s : Store) : Relation → List Dependent
  | Relation.pin => s.pins
  | Relation.playlist => s.playlists
  | Relation.follow => s.follows
  | Relation.like => s.likes

/-- An error a removal is rejected with. -/
structure StoreError where
  message : String
  deriving DecidableEq, Repr

/-- The query `Model.remove({ user })` on one collection; `user` is the `_id`
the removed User document is cast to. When the store fails the removal, the
promise is rejected with the error and the collection is left as it was;
otherwise every document whose `user` is that id is deleted and the promise is
fulfilled with their number. -/
def Model.remove (fault : Option StoreError) (user : ObjectId) (docs : List Dependent) :
    List Dependent × Except StoreError Nat :=
  match fault with
  | some e => (docs, Except.error e)
  | none =>
    (docs.filter (fun d => d.user ≠ user),
     Except.ok (docs.filter (fun d => d.user = user)).length)

/-- The rejection that settles first among promises given in array order, each
with the time it settles at; of two that settle together the earlier in the
array is first. -/
def firstRejection {ε α : Type} : List (Nat × Except ε α) → Option (Nat × ε)
  | [] => none
  | (_, Except.ok _) :: rest => firstRejection rest
  | (t, Except.error e) :: rest =>
    match firstRejection rest with
    | some (t', e') => if t' < t then some (t', e') else some (t, e)
    | none => some (t, e)

/-- The values of the fulfilled promises, in array order. -/
def fulfilled {ε α : Type} : List (Nat × Except ε α) → List α
  | [] => []
  | (_, Except.ok a) :: rest => a :: fulfilled rest
  | (_, Except.error _) :: rest => fulfilled rest

/-- The combinator `Promise.all`: rejected with the reason of the first promise
that is rejected, fulfilled with all the values when none is. -/
def promiseAll {ε α : Type} (promises : List (Nat × Except ε α)) : Except ε (List α) :=
  match firstRejection promises with
  | some (_, e) => Except.error e
  | none => Except.ok (fulfilled promises)

/-- The hook `UserSchema.post('remove', …)`: the four removals are all issued
when the array is built, and the hook returns `Promise.all` of them.
`faults` says which removals the store fails, `settle` when each promise
settles. The result is the store afterwards and what the returned promise
settles to. -/
def UserSchema.postRemove (faults : Relation → Option StoreError) (settle : Relation → Nat)
    (user : ObjectId) (s : Store) : Store × Except StoreError (List Nat) :=
  let pin := Model.remove (faults Relation.pin) user s.pins
  let playlist := Model.remove (faults Relation.playlist) user s.playlists
  let follow := Model.remove (faults Relation.follow) user s.follows
  let like := Model.remove (faults Relation.like) user s.likes
  ({ pins := pin.1, playlists := playlist.1, follows := follow.1, likes := like.1 },
   promiseAll [(settle Relation.pin, pin.2), (settle Relation.playlist, playlist.2),
     (settle Relation.follow, follow.2), (settle Relation.like, like.2)])

/-- No removal fails. -/
def noFaults : Relation → Option StoreError :=
  fun _ => none

/-- Whether a value is a feed token with read-write scope. -/
def JsVal.isReadWriteToken : JsVal → Bool
  | JsVal.feedToken _ _ Scope.readWrite => true
  | _ => false

/-! ## Sample data -/

/-- A Podcast document stored with `public = false` and a favicon. -/
def hiddenPodcast : Obj :=
  [("_id", JsVal.str "5b0f306d8e147f10f16aceaf"),
   ("title", JsVal.str "Test Cast"),
   ("images", JsVal.obj [("favicon", JsVal.str "https://cast.test/favicon.ico")]),
   ("public", JsVal.bool false)]

/-- A store in which users `1` and `2` both have dependents. -/
def sampleStore : Store :=
  { pins := [⟨10, 1⟩, ⟨11, 2⟩, ⟨12, 1⟩],
    playlists := [⟨20, 2⟩, ⟨21, 1⟩],
    follows := [⟨30, 1⟩],
    likes := [⟨40, 2⟩, ⟨41, 2⟩, ⟨42, 1⟩] }

/-- The store fails the Pin removal and the Playlist removal. -/
def pinAndPlaylistFail : Relation → Option StoreError
  | Relation.pin => some ⟨"pins unavailable"⟩
  | Relation.playlist => some ⟨"playlists unavailable"⟩
  | _ => none

/-- The store fails the Pin removal only. -/
def pinFails : Relation → Option StoreError
  | Relation.pin => some ⟨"pins unavailable"⟩
  | _ => none

/-- Every promise settles at the same time. -/
def settleTogether : Relation → Nat :=
  fun _ => 0

/-! ## Objects: reading after writing -/

namespace Obj

theorem get_set_same (o : Obj) (k : String) (v : JsVal) : get (set o k v) k = v := by
  induction o with
  | nil => simp [set, get]
  | cons p rest ih =>
    obtain ⟨k', v'⟩ := p
    by_cases h : k' = k
    · simp [set, get, h]
    · simp [set, get, h, ih]

theorem get_set_ne (o : Obj) (k k' : String) (v : JsVal) (h : k ≠ k') :
    get (set o k v) k' = get o k' := by
  induction o with
  | nil => simp [set, get, h]
  | cons p rest ih =>
    obtain ⟨k₀, v₀⟩ := p
    by_cases h₀ : k₀ = k
    · subst h₀
      simp [set, get, h]
    · by_cases h₁ : k₀ = k'
      · subst h₁
        simp [set, get, h₀]
      · simp [set, get, h₀, h₁, ih]

theorem hasKey_set_same (o : Obj) (k : String) (v : JsVal) : hasKey (set o k v) k = true := by
  induction o with
  | nil => simp [set, hasKey]
  | cons p rest ih =>
    obtain ⟨k', v'⟩ := p
    by_cases h : k' = k
    · simp [set, hasKey, h]
    · simp [set, hasKey, h, ih]

theorem hasKey_set_ne (o : Obj) (k k' : String) (v : JsVal) (h : k ≠ k') :
    hasKey (set o k v) k' = hasKey o k' := by
  induction o with
  | nil => simp [set, hasKey, h]
  | cons p rest ih =>
    obtain ⟨k₀, v₀⟩ := p
    by_cases h₀ : k₀ = k
    · subst h₀
      simp [set, hasKey, h]
    · by_cases h₁ : k₀ = k'
      · subst h₁
        simp [set, hasKey, h₀]
      · simp [set, hasKey, h₀, h₁, ih]

theorem set_set_same (o : Obj) (k : String) (v w : JsVal) :
    set (set o k v) k w = set o k w := by
  induction o with
  | nil => simp [set]
  | cons p rest ih =>
    obtain ⟨k', v'⟩ := p
    by_cases h : k' = k
    · simp [set, h]
    · simp [set, h, ih]

theorem hasKey_delete_same (o : Obj) (k : String) : hasKey (delete o k) k = false := by
  induction o with
  | nil => simp [delete, hasKey]
  | cons p rest ih =>
    obtain ⟨k', v'⟩ := p
    by_cases h : k' = k
    · simpa [delete, h] using ih
    · simpa [delete, hasKey, h] using ih

theorem get_append_of_hasKey_false (a b : Obj) (k : String) (h : hasKey a k = false) :
    get (a ++ b) k = get b k := by
  induction a with
  | nil => rfl
  | cons p rest ih =>
    obtain ⟨k', v'⟩ := p
    by_cases h' : k' = k
    · simp [hasKey, h'] at h
    · simp only [hasKey, h', if_false] at h
      simp [get, h', ih h]

end Obj

/-! ## Podcast: what the transforms compute -/

namespace PodcastSchema

theorem toJSONTransform_obj (ret im : Obj) (h : Obj.get ret "images" = JsVal.obj im) :
    toJSONTransform ret = Except.ok (Obj.set ret "images" (JsVal.obj
      (Obj.set (Obj.set im "favicon" ((Obj.get im "favicon").or (JsVal.str "")))
        "og" ((Obj.get im "og").or (JsVal.str ""))))) := by
  have hne : ("favicon" : String) ≠ "og" := by decide
  simp [toJSONTransform, h, JsVal.truthy, JsVal.setProp, JsVal.getProp, Obj.get_set_same,
    Obj.set_set_same, Obj.get_set_ne _ _ _ _ hne, bind, Except.bind, pure, Except.pure]

theorem toJSONTransform_falsy (ret : Obj) (h : (Obj.get ret "images").truthy = false) :
    toJSONTransform ret = Except.ok (Obj.set ret "images" (JsVal.obj
      [("favicon", JsVal.str ""), ("og", JsVal.str "")])) := by
  simp only [toJSONTransform, h]
  simp [JsVal.setProp, JsVal.getProp, Obj.get_set_same,
    Obj.set_set_same, Obj.get, Obj.set, JsVal.or, JsVal.truthy, bind, Except.bind, pure,
    Except.pure]

theorem toObjectTransform_eq (ret : Obj) : toObjectTransform ret = toJSONTransform ret := rfl

end PodcastSchema

/-! ## Podcast: the serialized document of the schema -/

theorem StringPath.toJs_or_empty (p : StringPath) :
    p.toJs.or (JsVal.str "") = JsVal.str p.orEmpty := by
  cases p with
  | absent => rfl
  | null => rfl
  | str s =>
    by_cases h : s = ""
    · subst h
      rfl
    · simp [StringPath.toJs, StringPath.orEmpty, JsVal.or, JsVal.truthy, h]

theorem Images.get_featured (im : Images) :
    Obj.get im.toObj "featured" = im.featured.toJs := by
  obtain ⟨f, b, fa, o⟩ := im
  cases f <;> cases b <;> cases fa <;> cases o <;> rfl

theorem Images.get_banner (im : Images) :
    Obj.get im.toObj "banner" = im.banner.toJs := by
  obtain ⟨f, b, fa, o⟩ := im
  cases f <;> cases b <;> cases fa <;> cases o <;> rfl

theorem Images.get_favicon (im : Images) :
    Obj.get im.toObj "favicon" = im.favicon.toJs := by
  obtain ⟨f, b, fa, o⟩ := im
  cases f <;> cases b <;> cases fa <;> cases o <;> rfl

theorem Images.get_og (im : Images) :
    Obj.get im.toObj "og" = im.og.toJs := by
  obtain ⟨f, b, fa, o⟩ := im
  cases f <;> cases b <;> cases fa <;> cases o <;> rfl

theorem Images.hasKey_featured (im : Images) :
    Obj.hasKey im.toObj "featured" = im.featured.present := by
  obtain ⟨f, b, fa, o⟩ := im
  cases f <;> cases b <;> cases fa <;> cases o <;> rfl

theorem Images.hasKey_banner (im : Images) :
    Obj.hasKey im.toObj "banner" = im.banner.present := by
  obtain ⟨f, b, fa, o⟩ := im
  cases f <;> cases b <;> cases fa <;> cases o <;> rfl

theorem PodcastRet.get_images (d : PodcastRet) :
    Obj.get d.toObj "images" = Obj.get d.images.entry "images" :=
  Obj.get_append_of_hasKey_false _ _ _ (Obj.hasKey_delete_same _ _)

/-- What both transforms give on a serialized Podcast: the other properties
are kept, and `images` is an object. -/
theorem PodcastSchema.toJSONTransform_toObj (d : PodcastRet) :
    PodcastSchema.toJSONTransform d.toObj = Except.ok
      (Obj.set d.toObj "images" (JsVal.obj
        (match d.images with
         | ImagesPath.obj im =>
           Obj.set (Obj.set im.toObj "favicon" (JsVal.str im.favicon.orEmpty))
             "og" (JsVal.str im.og.orEmpty)
         | _ => [("favicon", JsVal.str ""), ("og", JsVal.str "")]))) := by
  have hget := d.get_images
  obtain ⟨images, others⟩ := d
  cases images with
  | absent =>
    exact PodcastSchema.toJSONTransform_falsy _ (by rw [hget]; rfl)
  | null =>
    exact PodcastSchema.toJSONTransform_falsy _ (by rw [hget]; rfl)
  | obj im =>
    have h : Obj.get (PodcastRet.toObj ⟨ImagesPath.obj im, others⟩) "images"
        = JsVal.obj im.toObj := by
      rw [hget]; rfl
    rw [PodcastSchema.toJSONTransform_obj _ _ h, im.get_favicon, im.get_og,
      StringPath.toJs_or_empty, StringPath.toJs_or_empty]

/-- Claim C5. Whatever serialized Podcast the `toJSON` / `toObject`
transform is handed (`images` missing, `null`, or an object with or without
`favicon` and `og`), the result has an `images` object with both `favicon` and
`og`; each is the stored value when that is a non-empty string, and the empty
string otherwise. -/
theorem podcast_transform_favicon_og_present (d : PodcastRet) :
    ∃ out images : Obj,
      PodcastSchema.toJSONTransform d.toObj = Except.ok out ∧
      PodcastSchema.toObjectTransform d.toObj = Except.ok out ∧
      Obj.get out "images" = JsVal.obj images ∧
      Obj.hasKey images "favicon" = true ∧
      Obj.hasKey images "og" = true ∧
      Obj.get images "favicon" = JsVal.str d.images.favicon.orEmpty ∧
      Obj.get images "og" = JsVal.str d.images.og.orEmpty := by
  have hne : ("favicon" : String) ≠ "og" := by decide
  refine ⟨_, _, PodcastSchema.toJSONTransform_toObj d,
    (PodcastSchema.toObjectTransform_eq _).trans (PodcastSchema.toJSONTransform_toObj d),
    Obj.get_set_same _ _ _, ?_⟩
  obtain ⟨images, others⟩ := d
  cases images with
  | absent => exact ⟨rfl, rfl, rfl, rfl⟩
  | null => exact ⟨rfl, rfl, rfl, rfl⟩
  | obj im =>
    refine ⟨?_, Obj.hasKey_set_same _ _ _, ?_, Obj.get_set_same _ _ _⟩
    · rw [Obj.hasKey_set_ne _ _ _ _ hne.symm]
      exact Obj.hasKey_set_same _ _ _
    · rw [Obj.get_set_ne _ _ _ _ hne.symm]
      exact Obj.get_set_same _ _ _

/-- Claim C6, refuted as stated: a Podcast whose `images` is `null` is
projected to `images = {favicon: "", og: ""}`, where `featured` and `banner`
are not present. -/
theorem podcast_transform_null_images_lacks_slots :
    PodcastRet.toObj ⟨ImagesPath.null, []⟩ = [("images", JsVal.null)] ∧
    PodcastSchema.toJSONTransform [("images", JsVal.null)]
      = Except.ok [("images", JsVal.obj [("favicon", JsVal.str ""), ("og", JsVal.str "")])] ∧
    PodcastSchema.toObjectTransform [("images", JsVal.null)]
      = Except.ok [("images", JsVal.obj [("favicon", JsVal.str ""), ("og", JsVal.str "")])] ∧
    Obj.hasKey [("favicon", JsVal.str ""), ("og", JsVal.str "")] "featured" = false ∧
    Obj.hasKey [("favicon", JsVal.str ""), ("og", JsVal.str "")] "banner" = false :=
  ⟨rfl, rfl, rfl, rfl, rfl⟩

/-- The transforms leave `featured` and `banner` as the serialized document
has them: present if and only if its `images` has them, and with that value. -/
theorem PodcastSchema.transform_slots (d : PodcastRet) :
    ∃ out images : Obj,
      PodcastSchema.toJSONTransform d.toObj = Except.ok out ∧
      PodcastSchema.toObjectTransform d.toObj = Except.ok out ∧
      Obj.get out "images" = JsVal.obj images ∧
      Obj.hasKey images "favicon" = true ∧
      Obj.hasKey images "og" = true ∧
      Obj.get images "favicon" = JsVal.str d.images.favicon.orEmpty ∧
      Obj.get images "og" = JsVal.str d.images.og.orEmpty ∧
      Obj.hasKey images "featured" = d.images.featured.present ∧
      Obj.get images "featured" = d.images.featured.toJs ∧
      Obj.hasKey images "banner" = d.images.banner.present ∧
      Obj.get images "banner" = d.images.banner.toJs := by
  have h₁ : ("favicon" : String) ≠ "og" := by decide
  have h₂ : ("favicon" : String) ≠ "featured" := by decide
  have h₃ : ("og" : String) ≠ "featured" := by decide
  have h₄ : ("favicon" : String) ≠ "banner" := by decide
  have h₅ : ("og" : String) ≠ "banner" := by decide
  refine ⟨_, _, PodcastSchema.toJSONTransform_toObj d,
    (PodcastSchema.toObjectTransform_eq _).trans (PodcastSchema.toJSONTransform_toObj d),
    Obj.get_set_same _ _ _, ?_⟩
  obtain ⟨images, others⟩ := d
  cases images with
  | absent => exact ⟨rfl, rfl, rfl, rfl, rfl, rfl, rfl, rfl⟩
  | null => exact ⟨rfl, rfl, rfl, rfl, rfl, rfl, rfl, rfl⟩
  | obj im =>
    refine ⟨?_, Obj.hasKey_set_same _ _ _, ?_, Obj.get_set_same _ _ _, ?_, ?_, ?_, ?_⟩
    · rw [Obj.hasKey_set_ne _ _ _ _ h₁.symm]
      exact Obj.hasKey_set_same _ _ _
    · rw [Obj.get_set_ne _ _ _ _ h₁.symm]
      exact Obj.get_set_same _ _ _
    · rw [Obj.hasKey_set_ne _ _ _ _ h₃, Obj.hasKey_set_ne _ _ _ _ h₂]
      exact im.hasKey_featured
    · rw [Obj.get_set_ne _ _ _ _ h₃, Obj.get_set_ne _ _ _ _ h₂]
      exact im.get_featured
    · rw [Obj.hasKey_set_ne _ _ _ _ h₅, Obj.hasKey_set_ne _ _ _ _ h₄]
      exact im.hasKey_banner
    · rw [Obj.get_set_ne _ _ _ _ h₅, Obj.get_set_ne _ _ _ _ h₄]
      exact im.get_banner

theorem StringPath.present_withDefault (dflt : String) (p : StringPath) :
    (p.withDefault dflt).present = true := by
  cases p <;> rfl

theorem StringPath.orEmpty_withDefault (p : StringPath) :
    (p.withDefault "").orEmpty = p.orEmpty := by
  cases p <;> rfl

/-- Claim C6, amended. For a Podcast whose `images` is an object, the schema
defaults followed by the `toJSON` / `toObject` transform give an `images`
object in which `featured`, `banner`, `favicon` and `og` are all present, a
slot without a stored value being the empty string; so `images = {featured:
"x.png"}` is projected to `{featured: "x.png", banner: "", favicon: "", og:
""}`. For a serialized document whose `images` is `null` or missing, the
projected `images` is `{favicon: "", og: ""}`, without `featured` and
`banner`. -/
theorem podcast_projection_images_slots (im : Images) (others : Obj) :
    (∃ out images : Obj,
      PodcastSchema.toJSONTransform
        (PodcastRet.toObj ⟨ImagesPath.obj (PodcastSchema.imagesDefaults im), others⟩)
        = Except.ok out ∧
      PodcastSchema.toObjectTransform
        (PodcastRet.toObj ⟨ImagesPath.obj (PodcastSchema.imagesDefaults im), others⟩)
        = Except.ok out ∧
      Obj.get out "images" = JsVal.obj images ∧
      Obj.hasKey images "featured" = true ∧
      Obj.hasKey images "banner" = true ∧
      Obj.hasKey images "favicon" = true ∧
      Obj.hasKey images "og" = true ∧
      Obj.get images "featured" = (im.featured.withDefault "").toJs ∧
      Obj.get images "banner" = (im.banner.withDefault "").toJs ∧
      Obj.get images "favicon" = JsVal.str im.favicon.orEmpty ∧
      Obj.get images "og" = JsVal.str im.og.orEmpty) ∧
    (∃ out : Obj,
      PodcastSchema.toJSONTransform (PodcastRet.toObj ⟨ImagesPath.null, others⟩)
        = Except.ok out ∧
      PodcastSchema.toObjectTransform (PodcastRet.toObj ⟨ImagesPath.null, others⟩)
        = Except.ok out ∧
      Obj.get out "images" = JsVal.obj [("favicon", JsVal.str ""), ("og", JsVal.str "")]) ∧
    (∃ out : Obj,
      PodcastSchema.toJSONTransform (PodcastRet.toObj ⟨ImagesPath.absent, others⟩)
        = Except.ok out ∧
      PodcastSchema.toObjectTransform (PodcastRet.toObj ⟨ImagesPath.absent, others⟩)
        = Except.ok out ∧
      Obj.get out "images" = JsVal.obj [("favicon", JsVal.str ""), ("og", JsVal.str "")]) ∧
    PodcastSchema.toJSONTransform
        (PodcastRet.toObj ⟨ImagesPath.obj (PodcastSchema.imagesDefaults featuredOnly), []⟩)
      = Except.ok [("images", JsVal.obj
          [("featured", JsVal.str "x.png"), ("banner", JsVal.str ""),
           ("favicon", JsVal.str ""), ("og", JsVal.str "")])] ∧
    PodcastSchema.toObjectTransform
        (PodcastRet.toObj ⟨ImagesPath.obj (PodcastSchema.imagesDefaults featuredOnly), []⟩)
      = Except.ok [("images", JsVal.obj
          [("featured", JsVal.str "x.png"), ("banner", JsVal.str ""),
           ("favicon", JsVal.str ""), ("og", JsVal.str "")])] := by
  refine ⟨?_, ?_, ?_, rfl, rfl⟩
  · obtain ⟨out, images, h₁, h₂, h₃, hkf, hko, hf, ho, hkfe, hfe, hkb, hb⟩ :=
      PodcastSchema.transform_slots
        ⟨ImagesPath.obj (PodcastSchema.imagesDefaults im), others⟩
    refine ⟨out, images, h₁, h₂, h₃, ?_, ?_, hkf, hko, hfe, hb, ?_, ?_⟩
    · rw [hkfe]
      exact StringPath.present_withDefault "" im.featured
    · rw [hkb]
      exact StringPath.present_withDefault "" im.banner
    · rw [hf]
      exact congrArg JsVal.str (StringPath.orEmpty_withDefault im.favicon)
    · rw [ho]
      exact congrArg JsVal.str (StringPath.orEmpty_withDefault im.og)
  · exact ⟨_, PodcastSchema.toJSONTransform_toObj ⟨ImagesPath.null, others⟩,
      (PodcastSchema.toObjectTransform_eq _).trans
        (PodcastSchema.toJSONTransform_toObj ⟨ImagesPath.null, others⟩),
      Obj.get_set_same _ _ _⟩
  · exact ⟨_, PodcastSchema.toJSONTransform_toObj ⟨ImagesPath.absent, others⟩,
      (PodcastSchema.toObjectTransform_eq _).trans
        (PodcastSchema.toJSONTransform_toObj ⟨ImagesPath.absent, others⟩),
      Obj.get_set_same _ _ _⟩

/-! ## Podcast: `searchDocument` -/

/-- Claim C8. For every Podcast, `searchDocument` has `objectID` equal to the
Podcast's `_id`, `description` and `title` equal to its title, `categories`
equal to "Podcast" and `type` equal to "podcast"; a Podcast titled "Test Cast"
gets the description "Test Cast". -/
theorem searchDocument_fields (p : Obj) :
    Obj.get (PodcastSchema.searchDocument p) "objectID" = Obj.get p "_id" ∧
    Obj.get (PodcastSchema.searchDocument p) "description" = Obj.get p "title" ∧
    Obj.get (PodcastSchema.searchDocument p) "title" = Obj.get p "title" ∧
    Obj.get (PodcastSchema.searchDocument p) "categories" = JsVal.str "Podcast" ∧
    Obj.get (PodcastSchema.searchDocument p) "type" = JsVal.str "podcast" ∧
    Obj.get (PodcastSchema.searchDocument (Obj.set p "title" (JsVal.str "Test Cast")))
      "description" = JsVal.str "Test Cast" :=
  ⟨rfl, rfl, rfl, rfl, rfl, Obj.get_set_same p "title" (JsVal.str "Test Cast")⟩

/-- Claim C10, refuted as stated: for a Podcast stored with `public = false`
and an `images.favicon`, `searchDocument` has `public = true`, and its `image`
is `undefined`, not the stored favicon. -/
theorem searchDocument_ignores_stored_public :
    Obj.get hiddenPodcast "public" = JsVal.bool false ∧
    Obj.get (PodcastSchema.searchDocument hiddenPodcast) "public" = JsVal.bool true ∧
    (Obj.get hiddenPodcast "images").getProp "favicon"
      = JsVal.str "https://cast.test/favicon.ico" ∧
    Obj.get (PodcastSchema.searchDocument hiddenPodcast) "image" = JsVal.undefined :=
  ⟨rfl, rfl, rfl, rfl⟩

/-- Claim C10, amended. For every Podcast, the `public` field of
`searchDocument` is the constant `true`, whatever the stored `public` flag. -/
theorem searchDocument_public_true (p : Obj) :
    Obj.get (PodcastSchema.searchDocument p) "public" = JsVal.bool true :=
  rfl

/-- The `image` of `searchDocument` is the top-level property `favicon` of the
document, which is not `images.favicon`. -/
theorem searchDocument_image (p : Obj) :
    Obj.get (PodcastSchema.searchDocument p) "image" = Obj.get p "favicon" :=
  rfl

/-! ## User: serialized views -/

/-- Claim C7. Whatever a User document holds, none of its serialized views has
a `password` property: not the result of the `toJSON` / `toObject` transform,
and not the object `serializeAuthenticatedUser` returns. -/
theorem user_views_have_no_password (gravatarUrl : JsVal → JsVal) (secret : String)
    (ret user : Obj) :
    Obj.hasKey (UserSchema.toJSONTransform gravatarUrl ret) "password" = false ∧
    Obj.hasKey (UserSchema.toObjectTransform gravatarUrl ret) "password" = false ∧
    Obj.hasKey (UserSchema.serializeAuthenticatedUser secret user) "password" = false := by
  have hne : ("gravatar" : String) ≠ "password" := by decide
  have h : Obj.hasKey (UserSchema.toJSONTransform gravatarUrl ret) "password" = false := by
    unfold UserSchema.toJSONTransform
    simp only []
    split
    · rw [Obj.hasKey_set_ne _ _ _ _ hne]
      exact Obj.hasKey_delete_same _ _
    · exact Obj.hasKey_delete_same _ _
  exact ⟨h, h, rfl⟩

/-- Claim C9. For every User `u`, the `streamTokens` of
`serializeAuthenticatedUser` has exactly the keys `timeline`, `user_article`
and `user_episode`, each holding the read-only token of the feed `(k, u._id)`;
none of its entries is a read-write token; the view has the properties `_id`,
`email`, `interests`, `jwt`, `name`, `username` and `streamTokens` and no
other; and its `jwt` is the session token signed over the claims
`email = u.email` and `sub = u._id`. -/
theorem serializeAuthenticatedUser_tokens (secret : String) (u : Obj) :
    ∃ streamTokens : Obj,
      Obj.get (UserSchema.serializeAuthenticatedUser secret u) "streamTokens"
        = JsVal.obj streamTokens ∧
      Obj.keys streamTokens = ["timeline", "user_article", "user_episode"] ∧
      Obj.get streamTokens "timeline" = getReadOnlyToken "timeline" (Obj.get u "_id") ∧
      Obj.get streamTokens "user_article"
        = getReadOnlyToken "user_article" (Obj.get u "_id") ∧
      Obj.get streamTokens "user_episode"
        = getReadOnlyToken "user_episode" (Obj.get u "_id") ∧
      streamTokens.any (fun entry => entry.2.isReadWriteToken) = false ∧
      Obj.keys (UserSchema.serializeAuthenticatedUser secret u)
        = ["_id", "email", "interests", "jwt", "name", "username", "streamTokens"] ∧
      Obj.get (UserSchema.serializeAuthenticatedUser secret u) "jwt"
        = jwtSign [("email", Obj.get u "email"), ("sub", Obj.get u "_id")] secret :=
  ⟨_, rfl, rfl, rfl, rfl, rfl, rfl, rfl, rfl⟩

/-! ## Podcast: the scrape-failure counter -/

theorem findById_cons (id : ObjectId) (p : Podcast) (ps : List Podcast) :
    findById id (p :: ps) = if p._id = id then some p else findById id ps := by
  by_cases h : p._id = id
  · simp [findById, h]
  · simp [findById, h]

theorem findById_findOneAndUpdate_same (id : ObjectId) (update : Podcast → Podcast)
    (hid : ∀ p, (update p)._id = p._id) (podcasts : List Podcast) :
    findById id (findOneAndUpdate id update podcasts) = (findById id podcasts).map update := by
  induction podcasts with
  | nil => rfl
  | cons p ps ih =>
    by_cases h : p._id = id
    · have h' : (update p)._id = id := by rw [hid]; exact h
      rw [findOneAndUpdate, if_pos h, findById_cons, if_pos h', findById_cons, if_pos h]
      rfl
    · rw [findOneAndUpdate, if_neg h, findById_cons, if_neg h, findById_cons, if_neg h]
      exact ih

theorem findById_findOneAndUpdate_ne (id id' : ObjectId) (update : Podcast → Podcast)
    (hid : ∀ p, (update p)._id = p._id) (hne : id' ≠ id) (podcasts : List Podcast) :
    findById id (findOneAndUpdate id' update podcasts) = findById id podcasts := by
  induction podcasts with
  | nil => rfl
  | cons p ps ih =>
    by_cases h : p._id = id'
    · have h₁ : ¬ p._id = id := by rw [h]; exact hne
      have h₂ : ¬ (update p)._id = id := by rw [hid]; exact h₁
      rw [findOneAndUpdate, if_pos h, findById_cons, if_neg h₂, findById_cons, if_neg h₁]
    · rw [findOneAndUpdate, if_neg h, findById_cons, findById_cons, ih]

theorem findById_incrScrapeFailures_same (id : ObjectId) (podcasts : List Podcast) :
    findById id (PodcastSchema.incrScrapeFailures id podcasts) =
      (findById id podcasts).map
        (fun p => { p with consecutiveScrapeFailures := p.consecutiveScrapeFailures + 1 }) :=
  findById_findOneAndUpdate_same id
    (fun p => { p with consecutiveScrapeFailures := p.consecutiveScrapeFailures + 1 })
    (fun _ => rfl) podcasts

theorem findById_incrScrapeFailures_ne (id id' : ObjectId) (hne : id' ≠ id)
    (podcasts : List Podcast) :
    findById id (PodcastSchema.incrScrapeFailures id' podcasts) = findById id podcasts :=
  findById_findOneAndUpdate_ne id id'
    (fun p => { p with consecutiveScrapeFailures := p.consecutiveScrapeFailures + 1 })
    (fun _ => rfl) hne podcasts

theorem findById_resetScrapeFailures_same (id : ObjectId) (podcasts : List Podcast) :
    findById id (PodcastSchema.resetScrapeFailures id podcasts) =
      (findById id podcasts).map (fun p => { p with consecutiveScrapeFailures := 0 }) :=
  findById_findOneAndUpdate_same id
    (fun p => { p with consecutiveScrapeFailures := 0 })
    (fun _ => rfl) podcasts

theorem findById_resetScrapeFailures_ne (id id' : ObjectId) (hne : id' ≠ id)
    (podcasts : List Podcast) :
    findById id (PodcastSchema.resetScrapeFailures id' podcasts) = findById id podcasts :=
  findById_findOneAndUpdate_ne id id'
    (fun p => { p with consecutiveScrapeFailures := 0 })
    (fun _ => rfl) hne podcasts

theorem runCalls_append (calls : List ScrapeCall) (c : ScrapeCall) (podcasts : List Podcast) :
    runCalls (calls ++ [c]) podcasts = c.run (runCalls calls podcasts) := by
  simp [runCalls, List.foldl_append]

theorem failuresSinceLastReset_append (id : ObjectId) (calls : List ScrapeCall)
    (c : ScrapeCall) :
    failuresSinceLastReset id (calls ++ [c]) =
      if c = ScrapeCall.resetScrapeFailures id then 0
      else if c = ScrapeCall.incrScrapeFailures id then failuresSinceLastReset id calls + 1
      else failuresSinceLastReset id calls := by
  unfold failuresSinceLastReset
  rw [List.reverse_append, List.reverse_singleton, List.singleton_append]
  by_cases h : c = ScrapeCall.resetScrapeFailures id
  · simp [List.takeWhile_cons, h]
  · by_cases h' : c = ScrapeCall.incrScrapeFailures id
    · simp [List.takeWhile_cons, h, h', List.filter_cons]
    · simp [List.takeWhile_cons, h, h', List.filter_cons]

/-- Claim C1. Starting from a collection in which Podcast `id` has the counter
`0`, after any finite sequence of `incrScrapeFailures` and
`resetScrapeFailures` calls its `consecutiveScrapeFailures` is the number of
`incrScrapeFailures id` calls that come after the last `resetScrapeFailures id`
call, all of them when there is no reset. -/
theorem consecutiveScrapeFailures_counts (podcasts : List Podcast) (id : ObjectId)
    (calls : List ScrapeCall) (p : Podcast) (hp : findById id podcasts = some p)
    (h0 : p.consecutiveScrapeFailures = 0) :
    (findById id (runCalls calls podcasts)).map (fun q => q.consecutiveScrapeFailures)
      = some (failuresSinceLastReset id calls) := by
  induction calls using List.reverseRecOn with
  | nil => simp [runCalls, failuresSinceLastReset, hp, h0]
  | append_singleton calls c ih =>
    rw [runCalls_append, failuresSinceLastReset_append]
    cases c with
    | incrScrapeFailures id' =>
      by_cases h : id' = id
      · subst h
        simp only [ScrapeCall.run]
        rw [findById_incrScrapeFailures_same]
        cases hq : findById id' (runCalls calls podcasts) with
        | none => simp [hq] at ih
        | some q =>
          simp only [hq, Option.map_some', Option.some.injEq] at ih
          simp [ih]
      · have h' : ScrapeCall.incrScrapeFailures id' ≠ ScrapeCall.incrScrapeFailures id := by
          intro hc; exact h (ScrapeCall.incrScrapeFailures.inj hc)
        simp only [ScrapeCall.run]
        rw [findById_incrScrapeFailures_ne _ _ h]
        simp [ih, h']
    | resetScrapeFailures id' =>
      by_cases h : id' = id
      · subst h
        simp only [ScrapeCall.run]
        rw [findById_resetScrapeFailures_same]
        cases hq : findById id' (runCalls calls podcasts) with
        | none => simp [hq] at ih
        | some q => simp
      · have h' : ScrapeCall.resetScrapeFailures id' ≠ ScrapeCall.resetScrapeFailures id := by
          intro hc; exact h (ScrapeCall.resetScrapeFailures.inj hc)
        simp only [ScrapeCall.run]
        rw [findById_resetScrapeFailures_ne _ _ h]
        simp [ih, h']

/-- Claim C1 on a run: two failures, a success, two failures, and a failure
of another Podcast leave the counter of Podcast `7` at `2`. -/
theorem consecutiveScrapeFailures_counts_witness :
    findById 7 [⟨7, 0, []⟩, ⟨9, 0, []⟩] = some ⟨7, 0, []⟩ ∧
    (findById 7 (runCalls
      [ScrapeCall.incrScrapeFailures 7, ScrapeCall.incrScrapeFailures 7,
       ScrapeCall.resetScrapeFailures 7, ScrapeCall.incrScrapeFailures 7,
       ScrapeCall.incrScrapeFailures 7, ScrapeCall.incrScrapeFailures 9]
      [⟨7, 0, []⟩, ⟨9, 0, []⟩])).map (fun q => q.consecutiveScrapeFailures) = some 2 :=
  ⟨rfl, consecutiveScrapeFailures_counts [⟨7, 0, []⟩, ⟨9, 0, []⟩] 7
      [ScrapeCall.incrScrapeFailures 7, ScrapeCall.incrScrapeFailures 7,
       ScrapeCall.resetScrapeFailures 7, ScrapeCall.incrScrapeFailures 7,
       ScrapeCall.incrScrapeFailures 7, ScrapeCall.incrScrapeFailures 9]
      ⟨7, 0, []⟩ rfl rfl⟩

/-! ## User: the `post('remove')` hook -/

theorem firstRejection_none {ε α : Type} (ps : List (Nat × Except ε α))
    (h : firstRejection ps = none) (t : Nat) (e : ε) : (t, Except.error e) ∉ ps := by
  induction ps with
  | nil => simp
  | cons p rest ih =>
    obtain ⟨t₀, x⟩ := p
    cases x with
    | ok a =>
      simp only [firstRejection] at h
      simp [ih h]
    | error e₀ =>
      simp only [firstRejection] at h
      split at h
      · split at h <;> simp at h
      · simp at h

theorem firstRejection_some {ε α : Type} (ps : List (Nat × Except ε α)) (t : Nat) (e : ε)
    (h : firstRejection ps = some (t, e)) :
    (t, Except.error e) ∈ ps ∧ ∀ t' e', (t', Except.error e') ∈ ps → t ≤ t' := by
  induction ps generalizing t e with
  | nil => simp [firstRejection] at h
  | cons p rest ih =>
    obtain ⟨t₀, x⟩ := p
    cases x with
    | ok a =>
      simp only [firstRejection] at h
      obtain ⟨hmem, hmin⟩ := ih t e h
      refine ⟨List.mem_cons_of_mem _ hmem, ?_⟩
      intro t' e' h'
      rcases List.mem_cons.mp h' with heq | hin
      · simp at heq
      · exact hmin t' e' hin
    | error e₀ =>
      simp only [firstRejection] at h
      cases hr : firstRejection rest with
      | none =>
        rw [hr] at h
        simp only [Option.some.injEq, Prod.mk.injEq] at h
        obtain ⟨rfl, rfl⟩ := h
        refine ⟨List.mem_cons_self _ _, ?_⟩
        intro t' e' h'
        rcases List.mem_cons.mp h' with heq | hin
        · simp only [Prod.mk.injEq] at heq
          exact le_of_eq heq.1.symm
        · exact absurd hin (firstRejection_none rest hr t' e')
      | some q =>
        obtain ⟨t₁, e₁⟩ := q
        rw [hr] at h
        obtain ⟨hmem, hmin⟩ := ih t₁ e₁ hr
        by_cases hlt : t₁ < t₀
        · simp only [hlt, if_true, Option.some.injEq, Prod.mk.injEq] at h
          obtain ⟨rfl, rfl⟩ := h
          refine ⟨List.mem_cons_of_mem _ hmem, ?_⟩
          intro t' e' h'
          rcases List.mem_cons.mp h' with heq | hin
          · simp only [Prod.mk.injEq] at heq
            rw [heq.1]
            exact le_of_lt hlt
          · exact hmin t' e' hin
        · simp only [hlt, if_false, Option.some.injEq, Prod.mk.injEq] at h
          obtain ⟨rfl, rfl⟩ := h
          refine ⟨List.mem_cons_self _ _, ?_⟩
          intro t' e' h'
          rcases List.mem_cons.mp h' with heq | hin
          · simp only [Prod.mk.injEq] at heq
            exact le_of_eq heq.1.symm
          · exact le_trans (Nat.le_of_not_lt hlt) (hmin t' e' hin)

theorem Model.remove_snd_error (fault : Option StoreError) (u : ObjectId)
    (docs : List Dependent) (e : StoreError) :
    (Model.remove fault u docs).2 = Except.error e ↔ fault = some e := by
  cases fault with
  | none => simp [Model.remove]
  | some e₀ => simp [Model.remove]

theorem Model.remove_fst_of_none (fault : Option StoreError) (u : ObjectId)
    (docs : List Dependent) (h : fault = none) :
    (Model.remove fault u docs).1 = docs.filter (fun d => d.user ≠ u) := by
  subst h
  rfl

/-- The four promises the hook hands to `Promise.all`. -/
theorem UserSchema.postRemove_snd (faults : Relation → Option StoreError)
    (settle : Relation → Nat) (u : ObjectId) (s : Store) :
    (UserSchema.postRemove faults settle u s).2 =
      promiseAll ([Relation.pin, Relation.playlist, Relation.follow, Relation.like].map
        (fun r => (settle r, (Model.remove (faults r) u (s.coll r)).2))) :=
  rfl

theorem UserSchema.postRemove_coll (faults : Relation → Option StoreError)
    (settle : Relation → Nat) (u : ObjectId) (s : Store) (r : Relation) :
    (UserSchema.postRemove faults settle u s).1.coll r =
      (Model.remove (faults r) u (s.coll r)).1 := by
  cases r <;> rfl

theorem Relation.mem_all (r : Relation) :
    r ∈ [Relation.pin, Relation.playlist, Relation.follow, Relation.like] := by
  cases r <;> simp

/-- When the hook's promise is fulfilled, no removal failed. -/
theorem UserSchema.postRemove_ok (faults : Relation → Option StoreError)
    (settle : Relation → Nat) (u : ObjectId) (s : Store) (counts : List Nat)
    (h : (UserSchema.postRemove faults settle u s).2 = Except.ok counts) (r : Relation) :
    faults r = none := by
  rw [UserSchema.postRemove_snd, promiseAll] at h
  split at h
  · simp at h
  · rename_i hnone
    cases hf : faults r with
    | none => rfl
    | some e =>
      exfalso
      refine firstRejection_none _ hnone (settle r) e ?_
      refine List.mem_map.mpr ⟨r, r.mem_all, ?_⟩
      rw [(Model.remove_snd_error (faults r) u (s.coll r) e).mpr hf]

/-- When the hook's promise is rejected, the reason is the error of a removal
that failed, and no failed removal settled before it. -/
theorem UserSchema.postRemove_error (faults : Relation → Option StoreError)
    (settle : Relation → Nat) (u : ObjectId) (s : Store) (e : StoreError)
    (h : (UserSchema.postRemove faults settle u s).2 = Except.error e) :
    ∃ r, faults r = some e ∧ ∀ r', (faults r').isSome = true → settle r ≤ settle r' := by
  rw [UserSchema.postRemove_snd, promiseAll] at h
  split at h
  · rename_i t e₀ hsome
    simp only [Except.error.injEq] at h
    subst h
    obtain ⟨hmem, hmin⟩ := firstRejection_some _ _ _ hsome
    obtain ⟨r, -, hr⟩ := List.mem_map.mp hmem
    simp only [Prod.mk.injEq] at hr
    refine ⟨r, (Model.remove_snd_error _ _ _ _).mp hr.2, ?_⟩
    intro r' hr'
    obtain ⟨e', he'⟩ := Option.isSome_iff_exists.mp hr'
    rw [hr.1]
    refine hmin (settle r') e' (List.mem_map.mpr ⟨r', r'.mem_all, ?_⟩)
    rw [(Model.remove_snd_error (faults r') u (s.coll r') e').mpr he']
  · simp at h

/-- The hook when no removal fails. -/
theorem UserSchema.postRemove_noFaults (settle : Relation → Nat) (u : ObjectId) (s : Store) :
    UserSchema.postRemove noFaults settle u s =
      ({ pins := s.pins.filter (fun d => d.user ≠ u),
         playlists := s.playlists.filter (fun d => d.user ≠ u),
         follows := s.follows.filter (fun d => d.user ≠ u),
         likes := s.likes.filter (fun d => d.user ≠ u) },
       Except.ok [(s.pins.filter (fun d => d.user = u)).length,
         (s.playlists.filter (fun d => d.user = u)).length,
         (s.follows.filter (fun d => d.user = u)).length,
         (s.likes.filter (fun d => d.user = u)).length]) :=
  rfl

theorem noFaults_of_forall (faults : Relation → Option StoreError)
    (h : ∀ r, faults r = none) : faults = noFaults :=
  funext h

/-- Claim C2. When none of the four removals fails, the promise of the hook is
fulfilled and each of the Pin, Playlist, Follow and Like collections is its
previous content without the entities whose `user` is the removed user: none
of that user's dependents remains, and the dependents of the other users are
all still there. -/
theorem postRemove_removes_exactly (faults : Relation → Option StoreError)
    (settle : Relation → Nat) (u : ObjectId) (s : Store)
    (h : ∀ r, faults r = none) (r : Relation) :
    (UserSchema.postRemove faults settle u s).2
      = Except.ok [(s.pins.filter (fun d => d.user = u)).length,
          (s.playlists.filter (fun d => d.user = u)).length,
          (s.follows.filter (fun d => d.user = u)).length,
          (s.likes.filter (fun d => d.user = u)).length] ∧
    (UserSchema.postRemove faults settle u s).1.coll r
      = (s.coll r).filter (fun d => d.user ≠ u) ∧
    ((UserSchema.postRemove faults settle u s).1.coll r).filter (fun d => d.user = u) = [] ∧
    ((UserSchema.postRemove faults settle u s).1.coll r).filter (fun d => d.user ≠ u)
      = (s.coll r).filter (fun d => d.user ≠ u) := by
  refine ⟨?_, ?_⟩
  · rw [noFaults_of_forall faults h, UserSchema.postRemove_noFaults]
  · rw [UserSchema.postRemove_coll, Model.remove_fst_of_none _ _ _ (h r)]
    refine ⟨rfl, ?_, ?_⟩
    · simp [List.filter_filter, List.filter_eq_nil_iff]
    · simp [List.filter_filter]

/-- Claim C2 on a store: removing user `1` when no removal fails. -/
theorem postRemove_removes_exactly_witness :
    (noFaults Relation.pin = none ∧ noFaults Relation.playlist = none ∧
      noFaults Relation.follow = none ∧ noFaults Relation.like = none) ∧
    ((UserSchema.postRemove noFaults settleTogether 1 sampleStore).2
      = Except.ok [2, 1, 1, 1] ∧
    (UserSchema.postRemove noFaults settleTogether 1 sampleStore).1.coll Relation.pin
      = (sampleStore.coll Relation.pin).filter (fun d => d.user ≠ 1) ∧
    ((UserSchema.postRemove noFaults settleTogether 1 sampleStore).1.coll
      Relation.pin).filter (fun d => d.user = 1) = [] ∧
    ((UserSchema.postRemove noFaults settleTogether 1 sampleStore).1.coll
      Relation.pin).filter (fun d => d.user ≠ 1)
      = (sampleStore.coll Relation.pin).filter (fun d => d.user ≠ 1)) :=
  ⟨⟨rfl, rfl, rfl, rfl⟩,
    postRemove_removes_exactly noFaults settleTogether 1 sampleStore (fun _ => rfl)
      Relation.pin⟩

/-- Claim C3, refuted as stated: when the Pin removal and the Playlist removal
both fail, the promise of the hook is rejected with the Pin error alone; the
Playlist error is not in the outcome. -/
theorem postRemove_reports_one_failure :
    pinAndPlaylistFail Relation.pin = some ⟨"pins unavailable"⟩ ∧
    pinAndPlaylistFail Relation.playlist = some ⟨"playlists unavailable"⟩ ∧
    (UserSchema.postRemove pinAndPlaylistFail settleTogether 1 sampleStore).2
      = Except.error ⟨"pins unavailable"⟩ ∧
    (⟨"playlists unavailable"⟩ : StoreError) ≠ ⟨"pins unavailable"⟩ :=
  ⟨rfl, rfl, rfl, by decide⟩

/-- Claim C3, amended. For every choice of the removals the store fails: each
removal that does not fail completes (its collection loses exactly the
dependents of the removed user); the promise of the hook is fulfilled exactly
when no removal failed, then with the four numbers of removed documents; and
otherwise it is rejected with the error of one failed removal, the one that
settled first, the other failures not being reported. -/
theorem postRemove_independent (faults : Relation → Option StoreError)
    (settle : Relation → Nat) (u : ObjectId) (s : Store) :
    (∀ r, faults r = none →
      (UserSchema.postRemove faults settle u s).1.coll r
        = (s.coll r).filter (fun d => d.user ≠ u)) ∧
    (match (UserSchema.postRemove faults settle u s).2 with
     | Except.ok counts =>
       (∀ r, faults r = none) ∧
       counts = [(s.pins.filter (fun d => d.user = u)).length,
         (s.playlists.filter (fun d => d.user = u)).length,
         (s.follows.filter (fun d => d.user = u)).length,
         (s.likes.filter (fun d => d.user = u)).length]
     | Except.error e =>
       ∃ r, faults r = some e ∧ ∀ r₂, (faults r₂).isSome = true → settle r ≤ settle r₂) := by
  refine ⟨?_, ?_⟩
  · intro r h
    rw [UserSchema.postRemove_coll, Model.remove_fst_of_none _ _ _ h]
  · cases hres : (UserSchema.postRemove faults settle u s).2 with
    | ok counts =>
      have hall := UserSchema.postRemove_ok faults settle u s counts hres
      refine ⟨hall, ?_⟩
      rw [noFaults_of_forall faults hall, UserSchema.postRemove_noFaults] at hres
      simp only [Except.ok.injEq] at hres
      exact hres.symm
    | error e => exact UserSchema.postRemove_error faults settle u s e hres

/-- Claim C3 on a store: the Pin removal fails; the Like removal still
completes, and the promise is rejected with the Pin error. -/
theorem postRemove_independent_witness :
    pinFails Relation.like = none ∧
    (UserSchema.postRemove pinFails settleTogether 1 sampleStore).1.coll Relation.like
      = (sampleStore.coll Relation.like).filter (fun d => d.user ≠ 1) ∧
    (UserSchema.postRemove pinFails settleTogether 1 sampleStore).1.coll Relation.like
      = [⟨40, 2⟩, ⟨41, 2⟩] ∧
    (UserSchema.postRemove pinFails settleTogether 1 sampleStore).2
      = Except.error ⟨"pins unavailable"⟩ :=
  ⟨rfl,
    (postRemove_independent pinFails settleTogether 1 sampleStore).1 Relation.like rfl,
    rfl, rfl⟩

/-- Claim C4. With no failing removal, running the hook for the same user a
second time leaves the store as the first run left it, with no dependent of
that user in it, and the second promise is fulfilled, with four counts of
zero. -/
theorem postRemove_idempotent (settle₁ settle₂ : Relation → Nat) (u : ObjectId) (s : Store) :
    UserSchema.postRemove noFaults settle₂ u (UserSchema.postRemove noFaults settle₁ u s).1
      = ((UserSchema.postRemove noFaults settle₁ u s).1, Except.ok [0, 0, 0, 0]) ∧
    ∀ r, ((UserSchema.postRemove noFaults settle₁ u s).1.coll r).filter
      (fun d => d.user = u) = [] := by
  have hnil : ∀ docs : List Dependent,
      (docs.filter (fun d => d.user ≠ u)).filter (fun d => d.user = u) = [] := by
    intro docs
    simp [List.filter_filter, List.filter_eq_nil_iff]
  have hsame : ∀ docs : List Dependent,
      (docs.filter (fun d => d.user ≠ u)).filter (fun d => d.user ≠ u)
        = docs.filter (fun d => d.user ≠ u) := by
    intro docs
    simp [List.filter_filter]
  refine ⟨?_, ?_⟩
  · rw [UserSchema.postRemove_noFaults settle₁, UserSchema.postRemove_noFaults settle₂]
    simp only [hnil, hsame, List.length_nil]
  · intro r
    rw [UserSchema.postRemove_coll]
    exact hnil _

end Winds
